import Mathlib

/-!
Verification of the résumé-builder application core.

The Python source (`app.py`) has four pieces of core logic:

* `clean_split_skills` — a skill-token normalizer;
* `extract_text_from_pdf_bytes` / `parse_uploaded_resume` — text extraction
  from an uploaded file;
* `analyze_cv_with_gemini` — the ATS assessment client wrapping one external
  generative-text API call;
* `create_pdf` — the résumé document renderer built on the FPDF library.

This file shallowly embeds those functions.  External libraries are modelled
as follows: the FPDF builder accumulates drawing commands together with
the cursor `y`-position and page count (its automatic page-break rule
`y + h > page_height - bottom_margin` is kept), and its `output`
serialization embeds the `/CreationDate` clock reading that PyFPDF's
`_putinfo` takes from `datetime.now()`;
the line-wrapping performed inside `multi_cell` is an abstract oracle
`wrap : String → Nat` giving the number of wrapped lines; the PyPDF2 byte
parser and the UTF-8 decoder are abstract oracles; `json.loads` is given an
executable model restricted to the JSON fragment exercised here.  Python
`dict` access is modelled with `Option` fields: `d.get(k, v)` is `Option.getD`,
`d.get(k)` used as a truth value is `pyTruthy`, and `d[k]` is a fallible
lookup raising a `KeyError` carried in `Except`.
-/

/-- Left brace character, written via its code point. -/
def lbrace : Char := Char.ofNat 123

/-- Right brace character, written via its code point. -/
def rbrace : Char := Char.ofNat 125

/-- Python truthiness of `d.get(k)` for a string-valued key: `None` and the
empty string are falsy. -/
def pyTruthy (o : Option String) : Bool := o.getD "" ≠ ""

/-- Python `str.lower()` (character-wise ASCII case folding). -/
def pyLower (s : String) : String := String.mk (s.toList.map Char.toLower)

/-- Python `str.upper()` (character-wise ASCII case folding). -/
def pyUpper (s : String) : String := String.mk (s.toList.map Char.toUpper)

/-- Python `str.endswith(suffix)`. -/
def pyEndsWith (s suffix : String) : Bool :=
  suffix.toList.isSuffixOf s.toList

/-- Python `d[k]`: a missing key raises `KeyError(k)`. -/
inductive RenderErr where
  | keyError (key : String)
deriving DecidableEq, Repr

/-- Fallible dictionary indexing `d[k]` on an optional field. -/
def getKey (o : Option String) (k : String) : Except RenderErr String :=
  match o with
  | some v => .ok v
  | none => .error (.keyError k)

/-- One drawing command issued to the PDF builder (the FPDF call trace). -/
inductive Cmd where
  | addPage
  | setFont (family style : String) (size : Nat)
  | setDrawColor (r g b : Nat)
  | cell (w h : Nat) (txt : String) (ln : Bool) (align : String)
  | multiCell (w h : Nat) (txt : String) (align : String)
  | drawLine (x1 y1 x2 y2 : Nat)
  | lineBreak (h : Nat)
deriving DecidableEq, Repr

/-- State of the PDF builder: the command trace, the cursor `y` position and
the current page number (A4 layout units, whole millimetres). -/
structure PdfState where
  cmds : List Cmd
  y : Nat
  page : Nat
deriving DecidableEq, Repr

/-- `set_auto_page_break(auto=True, margin=15)` on an A4 page of height 297:
a cell starting when `y + h` would pass `297 - 15` first breaks the page. -/
def pageBreakTrigger : Nat := 282

/-- Default top margin: the cursor position on a fresh page. -/
def topMargin : Nat := 10

/-- `FPDF()` followed by `add_page()`: one page, cursor at the top margin. -/
def initPdf : PdfState := { cmds := [Cmd.addPage], y := topMargin, page := 1 }

/-- `pdf.set_font(family, style, size)`. -/
def pdfSetFont (family style : String) (size : Nat) (s : PdfState) : PdfState :=
  { s with cmds := s.cmds ++ [Cmd.setFont family style size] }

/-- `pdf.set_draw_color(r, g, b)`. -/
def pdfSetDrawColor (r g b : Nat) (s : PdfState) : PdfState :=
  { s with cmds := s.cmds ++ [Cmd.setDrawColor r g b] }

/-- `pdf.cell(w, h, txt, ln=..., align=...)` with the automatic page break:
if `y + h` passes the trigger a new page is started first; `ln=True` moves
the cursor down by `h`, `ln=0` keeps it on the line. -/
def pdfCell (w h : Nat) (txt : String) (ln : Bool) (align : String)
    (s : PdfState) : PdfState :=
  let brk := pageBreakTrigger < s.y + h
  let cmds := s.cmds ++ (if brk then [Cmd.addPage] else []) ++
    [Cmd.cell w h txt ln align]
  let page := if brk then s.page + 1 else s.page
  let y0 := if brk then topMargin else s.y
  { cmds := cmds, page := page, y := if ln then y0 + h else y0 }

/-- Cursor advance of `multi_cell`, one wrapped line at a time, each line
subject to the automatic page break. -/
def pdfMultiAdvance (h : Nat) : Nat → PdfState → PdfState
  | 0, s => s
  | n + 1, s =>
    let brk := pageBreakTrigger < s.y + h
    let s' : PdfState :=
      { cmds := s.cmds ++ (if brk then [Cmd.addPage] else []),
        page := if brk then s.page + 1 else s.page,
        y := (if brk then topMargin else s.y) + h }
    pdfMultiAdvance h n s'

/-- `pdf.multi_cell(w, h, txt, align=...)`: records the command and moves the
cursor down by `h` per wrapped line, where the number of wrapped lines is
given by the abstract text-measurement oracle `wrap`. -/
def pdfMultiCell (wrap : String → Nat) (w h : Nat) (txt : String)
    (align : String) (s : PdfState) : PdfState :=
  pdfMultiAdvance h (wrap txt)
    { s with cmds := s.cmds ++ [Cmd.multiCell w h txt align] }

/-- `pdf.ln(h)`: move the cursor down by `h`. -/
def pdfLn (h : Nat) (s : PdfState) : PdfState :=
  { s with cmds := s.cmds ++ [Cmd.lineBreak h], y := s.y + h }

/-- `pdf.line(x1, y1, x2, y2)`. -/
def pdfLine (x1 y1 x2 y2 : Nat) (s : PdfState) : PdfState :=
  { s with cmds := s.cmds ++ [Cmd.drawLine x1 y1 x2 y2] }

/-- An `experience` list entry (all sub-fields optional dictionary keys). -/
structure ExpEntry where
  title : Option String := none
  company : Option String := none
  start_date : Option String := none
  end_date : Option String := none
  description : Option String := none
deriving DecidableEq, Repr

/-- An `education` list entry. -/
structure EduEntry where
  degree : Option String := none
  university : Option String := none
  start_date : Option String := none
  end_date : Option String := none
  cgpa : Option String := none
  description : Option String := none
deriving DecidableEq, Repr

/-- A `projects` list entry. -/
structure ProjEntry where
  title : Option String := none
  start_date : Option String := none
  end_date : Option String := none
  company : Option String := none
  budget : Option String := none
  description : Option String := none
deriving DecidableEq, Repr

/-- A `certificates` list entry. -/
structure CertEntry where
  title : Option String := none
  organization : Option String := none
  date : Option String := none
deriving DecidableEq, Repr

/-- The résumé record handed to `create_pdf`: a dictionary whose keys may
each be absent (`none`). -/
structure ResumeRecord where
  name : Option String := none
  title : Option String := none
  email : Option String := none
  linkedin : Option String := none
  github : Option String := none
  phone : Option String := none
  location : Option String := none
  summary : Option String := none
  skills : Option (List String) := none
  experience : Option (List ExpEntry) := none
  education : Option (List EduEntry) := none
  projects : Option (List ProjEntry) := none
  certificates : Option (List CertEntry) := none
  languages : Option (List String) := none
  interests : Option (List String) := none
deriving DecidableEq, Repr

/-- The produced document, abstracted to its command trace and page count
(the byte serialization is a deterministic function of these). -/
structure PdfDoc where
  cmds : List Cmd
  pages : Nat
deriving DecidableEq, Repr

/-- Ambient effects available at render time: a wall clock and an entropy
source.  The document-building code of `create_pdf` never consults either,
but the PyFPDF serializer reads the clock: `_putinfo` embeds a
`/CreationDate` taken from `datetime.now()` into the output bytes. -/
structure RenderEnv where
  now : Nat
  entropy : Nat
deriving DecidableEq, Repr

/-- Name header: `set_font("Helvetica","B",22)`, centred upper-cased name
cell, `ln(2)`. -/
def renderNameHeader (name : String) (s : PdfState) : PdfState :=
  let s := pdfSetFont "Helvetica" "B" 22 s
  let s := pdfCell 0 5 (pyUpper name) true "C" s
  pdfLn 2 s

/-- Contact line: the pipe-joined list of the present contact fields,
emitted as a centred `multi_cell` only when at least one is present. -/
def renderContact (wrap : String → Nat)
    (email linkedin github phone location : Option String)
    (s : PdfState) : PdfState :=
  let s := pdfSetFont "Helvetica" "" 12 s
  let contact : List String :=
    (if pyTruthy email then ["Email: " ++ email.getD ""] else []) ++
    (if pyTruthy linkedin then ["LinkedIn: " ++ linkedin.getD ""] else []) ++
    (if pyTruthy github then ["GitHub: " ++ github.getD ""] else []) ++
    (if pyTruthy phone then ["Phone: " ++ phone.getD ""] else []) ++
    (if pyTruthy location then ["Location: " ++ location.getD ""] else [])
  if contact.isEmpty then s
  else
    let s := pdfMultiCell wrap 0 10 (String.intercalate " | " contact) "C" s
    pdfLn 10 s

/-- The section-heading block repeated verbatim for every section of
`create_pdf`: bold 14pt heading cell, horizontal rule at the cursor, then
`ln(2)`. -/
def sectionHeading (title : String) (s : PdfState) : PdfState :=
  let s := pdfSetFont "Helvetica" "B" 14 s
  let s := pdfCell 0 10 title true "" s
  let line_y := s.y
  let s := pdfSetDrawColor 0 0 0 s
  let s := pdfLine 10 line_y 200 line_y s
  pdfLn 2 s

/-- Profile Summary section: heading, rule and body, only when the summary
text is non-empty. -/
def renderSummary (wrap : String → Nat) (summary_text : String)
    (s : PdfState) : PdfState :=
  if summary_text = "" then s
  else
    let s := sectionHeading "Profile Summary" s
    let s := pdfSetFont "Helvetica" "" 12 s
    let s := pdfMultiCell wrap 0 8 summary_text "" s
    pdfLn 6 s

/-- One experience entry: the loop body of the Experience section.
`exp['title']`, `exp['start_date']`, `exp['end_date']` and `exp['company']`
are indexed directly (a missing key raises); `description` is read with
`.get` and rendered only when truthy. -/
def renderExpEntry (wrap : String → Nat) (e : ExpEntry) (s : PdfState) :
    Except RenderErr PdfState :=
  let s := pdfSetFont "Helvetica" "B" 12 s
  match getKey e.title "title" with
  | .error err => .error err
  | .ok t =>
    let s := pdfCell 0 8 t false "" s
    let s := pdfSetFont "Helvetica" "I" 12 s
    match getKey e.start_date "start_date" with
    | .error err => .error err
    | .ok sd =>
      match getKey e.end_date "end_date" with
      | .error err => .error err
      | .ok ed =>
        let s := pdfCell 0 6 ("(" ++ sd ++ " - " ++ ed ++ ")") true "R" s
        let s := pdfSetFont "Helvetica" "" 12 s
        match getKey e.company "company" with
        | .error err => .error err
        | .ok c =>
          let s := pdfCell 0 8 c true "" s
          let s :=
            if pyTruthy e.description then
              pdfMultiCell wrap 0 6 (e.description.getD "") "" s
            else s
          .ok (pdfLn 4 s)

/-- The `for exp in experience_data` loop. -/
def renderExpList (wrap : String → Nat) :
    List ExpEntry → PdfState → Except RenderErr PdfState
  | [], s => .ok s
  | e :: es, s =>
    match renderExpEntry wrap e s with
    | .error err => .error err
    | .ok s' => renderExpList wrap es s'

/-- Experience section: heading and rule when the list is non-empty, then
the entry loop. -/
def renderExperience (wrap : String → Nat) (experience_data : List ExpEntry)
    (s : PdfState) : Except RenderErr PdfState :=
  if experience_data.isEmpty then .ok s
  else
    let s := sectionHeading "Experience" s
    let s := pdfSetFont "Helvetica" "" 12 s
    renderExpList wrap experience_data s

/-- One education entry: `degree`, `start_date`, `end_date` and `university`
are indexed directly; `cgpa` and `description` are optional. -/
def renderEduEntry (wrap : String → Nat) (e : EduEntry) (s : PdfState) :
    Except RenderErr PdfState :=
  let s := pdfSetFont "Helvetica" "B" 12 s
  match getKey e.degree "degree" with
  | .error err => .error err
  | .ok d =>
    let s := pdfCell 0 8 d false "" s
    let s := pdfSetFont "Helvetica" "I" 12 s
    match getKey e.start_date "start_date" with
    | .error err => .error err
    | .ok sd =>
      match getKey e.end_date "end_date" with
      | .error err => .error err
      | .ok ed =>
        let s := pdfCell 0 8 ("(" ++ sd ++ " - " ++ ed ++ ")") true "R" s
        let s := pdfSetFont "Helvetica" "" 12 s
        match getKey e.university "university" with
        | .error err => .error err
        | .ok u =>
          let s := pdfCell 0 6 u true "" s
          let s :=
            if pyTruthy e.cgpa then
              pdfCell 0 6 ("CGPA/Percentage: " ++ e.cgpa.getD "") true "" s
            else s
          let s :=
            if pyTruthy e.description then
              pdfMultiCell wrap 0 6 (e.description.getD "") "" s
            else s
          .ok (pdfLn 4 s)

/-- The `for edu in education_list` loop. -/
def renderEduList (wrap : String → Nat) :
    List EduEntry → PdfState → Except RenderErr PdfState
  | [], s => .ok s
  | e :: es, s =>
    match renderEduEntry wrap e s with
    | .error err => .error err
    | .ok s' => renderEduList wrap es s'

/-- Education section. -/
def renderEducation (wrap : String → Nat) (education_list : List EduEntry)
    (s : PdfState) : Except RenderErr PdfState :=
  if education_list.isEmpty then .ok s
  else
    let s := sectionHeading "Education" s
    let s := pdfSetFont "Helvetica" "" 12 s
    renderEduList wrap education_list s

/-- Skills section: heading and rule are emitted unconditionally; the
comma-joined list only when `skills` is non-empty; `ln(4)` always. -/
def renderSkills (wrap : String → Nat) (skills : List String)
    (s : PdfState) : PdfState :=
  let s := sectionHeading "Skills" s
  let s :=
    if skills.isEmpty then s
    else
      let s := pdfSetFont "Helvetica" "" 12 s
      pdfMultiCell wrap 0 8 (String.intercalate ", " skills) "" s
  pdfLn 4 s

/-- One project entry: `title`, `start_date` and `end_date` are indexed
directly; `company`, `budget` and `description` are optional. -/
def renderProjEntry (wrap : String → Nat) (p : ProjEntry) (s : PdfState) :
    Except RenderErr PdfState :=
  let s := pdfSetFont "Helvetica" "B" 12 s
  match getKey p.title "title" with
  | .error err => .error err
  | .ok t =>
    let s := pdfCell 0 8 t false "" s
    let s := pdfSetFont "Helvetica" "I" 11 s
    match getKey p.start_date "start_date" with
    | .error err => .error err
    | .ok sd =>
      match getKey p.end_date "end_date" with
      | .error err => .error err
      | .ok ed =>
        let s := pdfCell 0 8 ("   " ++ sd ++ " - " ++ ed) true "R" s
        let s := pdfSetFont "Helvetica" "" 12 s
        let s :=
          if pyTruthy p.company then
            pdfCell 0 6 ("Company: " ++ p.company.getD "") true "" s
          else s
        let s :=
          if pyTruthy p.budget then
            pdfCell 0 6 ("Budget: " ++ p.budget.getD "") true "" s
          else s
        let s :=
          if pyTruthy p.description then
            pdfMultiCell wrap 0 6 (p.description.getD "") "" s
          else s
        .ok (pdfLn 4 s)

/-- The `for proj in projects_list` loop. -/
def renderProjList (wrap : String → Nat) :
    List ProjEntry → PdfState → Except RenderErr PdfState
  | [], s => .ok s
  | p :: ps, s =>
    match renderProjEntry wrap p s with
    | .error err => .error err
    | .ok s' => renderProjList wrap ps s'

/-- Projects section. -/
def renderProjects (wrap : String → Nat) (projects_list : List ProjEntry)
    (s : PdfState) : Except RenderErr PdfState :=
  if projects_list.isEmpty then .ok s
  else
    let s := sectionHeading "Projects" s
    renderProjList wrap projects_list s

/-- One certificate entry: `title`, `date` and `organization` are all
indexed directly. -/
def renderCertEntry (c : CertEntry) (s : PdfState) :
    Except RenderErr PdfState :=
  let s := pdfSetFont "Helvetica" "B" 12 s
  match getKey c.title "title" with
  | .error err => .error err
  | .ok t =>
    let s := pdfCell 0 8 t false "" s
    let s := pdfSetFont "Helvetica" "I" 12 s
    match getKey c.date "date" with
    | .error err => .error err
    | .ok d =>
      let s := pdfCell 0 8 ("(" ++ d ++ ")") true "R" s
      let s := pdfSetFont "Helvetica" "" 12 s
      match getKey c.organization "organization" with
      | .error err => .error err
      | .ok o =>
        let s := pdfCell 0 4 o true "" s
        .ok (pdfLn 4 s)

/-- The `for cert in certificates_list` loop. -/
def renderCertList :
    List CertEntry → PdfState → Except RenderErr PdfState
  | [], s => .ok s
  | c :: cs, s =>
    match renderCertEntry c s with
    | .error err => .error err
    | .ok s' => renderCertList cs s'

/-- Extra Courses & Certificates section. -/
def renderCertificates (certificates_list : List CertEntry)
    (s : PdfState) : Except RenderErr PdfState :=
  if certificates_list.isEmpty then .ok s
  else
    let s := sectionHeading "Extra Courses & Certificates" s
    let s := pdfSetFont "Helvetica" "" 12 s
    renderCertList certificates_list s

/-- Additional Information section: emitted when `languages` or `interests`
is non-empty; the `ln(1)` between the two lines is unconditional inside the
section, as is the closing `ln(4)`. -/
def renderAdditional (languages interests : List String)
    (s : PdfState) : PdfState :=
  if languages.isEmpty && interests.isEmpty then s
  else
    let s := sectionHeading "Additional Information" s
    let s :=
      if languages.isEmpty then s
      else
        let s := pdfSetFont "Helvetica" "B" 12 s
        let s := pdfCell 25 6 "Languages:" false "" s
        let s := pdfSetFont "Helvetica" "" 12 s
        pdfCell 0 6 (String.intercalate ", " languages) true "" s
    let s := pdfLn 1 s
    let s :=
      if interests.isEmpty then s
      else
        let s := pdfSetFont "Helvetica" "B" 12 s
        let s := pdfCell 20 6 "Interests:" false "" s
        let s := pdfSetFont "Helvetica" "" 12 s
        pdfCell 0 6 (String.intercalate ", " interests) true "" s
    pdfLn 4 s

set_option linter.unusedVariables false in
/-- `create_pdf(data)` from `app.py`: builds the document section by
section and returns its bytes (abstracted to the command trace and page
count).  `env` is the ambient clock/entropy, which the function never
consults; `wrap` is the abstract `multi_cell` line-wrapping oracle.
A `KeyError` raised by a list entry propagates out as `.error`. -/
def create_pdf (env : RenderEnv) (wrap : String → Nat)
    (data : ResumeRecord) : Except RenderErr PdfDoc :=
  let s := initPdf
  let s := renderNameHeader (data.name.getD "") s
  let s := renderContact wrap data.email data.linkedin data.github
    data.phone data.location s
  let s := renderSummary wrap (data.summary.getD "") s
  match renderExperience wrap (data.experience.getD []) s with
  | .error err => .error err
  | .ok s =>
    match renderEducation wrap (data.education.getD []) s with
    | .error err => .error err
    | .ok s =>
      let s := renderSkills wrap (data.skills.getD []) s
      match renderProjects wrap (data.projects.getD []) s with
      | .error err => .error err
      | .ok s =>
        match renderCertificates (data.certificates.getD []) s with
        | .error err => .error err
        | .ok s =>
          let s := renderAdditional (data.languages.getD [])
            (data.interests.getD []) s
          .ok { cmds := s.cmds, pages := s.page }

/-- A simple injective byte encoding of a string (terminated char codes),
used to express "byte-identical output". -/
def serializeStr (s : String) : List Nat := s.toList.map Char.toNat ++ [0]

/-- The info-dictionary `/CreationDate (D:...)` entry that PyFPDF's
`_putinfo` writes into every serialized document from `datetime.now()`:
the marker bytes followed by the render-time clock reading. -/
def creationDateEntry (now : Nat) : List Nat :=
  serializeStr "/CreationDate (D:" ++ [now] ++ serializeStr ")"

/-- A simple injective byte encoding of one drawing command. -/
def serializeCmd : Cmd → List Nat
  | .addPage => [1]
  | .setFont f st sz => [2] ++ serializeStr f ++ serializeStr st ++ [sz]
  | .setDrawColor r g b => [3, r, g, b]
  | .cell w h t ln al =>
    [4, w, h] ++ serializeStr t ++ [if ln then 1 else 0] ++ serializeStr al
  | .multiCell w h t al => [5, w, h] ++ serializeStr t ++ serializeStr al
  | .drawLine a b c d => [6, a, b, c, d]
  | .lineBreak h => [7, h]

/-- Byte serialization of the produced document, standing for PyFPDF's
`pdf.output(dest="S").encode("latin-1")`: the page count, the info
dictionary — whose `/CreationDate` entry `_putinfo` fills from
`datetime.now()`, the clock reading `now` — then the drawn content. -/
def serializePdf (now : Nat) (d : PdfDoc) : List Nat :=
  [d.pages] ++ creationDateEntry now ++ (d.cmds.map serializeCmd).flatten

instance {ε α : Type} [DecidableEq ε] [DecidableEq α] :
    DecidableEq (Except ε α) := fun a b =>
  match a, b with
  | .error e1, .error e2 =>
    if h : e1 = e2 then isTrue (by rw [h])
    else isFalse (by intro hc; cases hc; exact h rfl)
  | .ok v1, .ok v2 =>
    if h : v1 = v2 then isTrue (by rw [h])
    else isFalse (by intro hc; cases hc; exact h rfl)
  | .error _, .ok _ => isFalse (by intro hc; cases hc)
  | .ok _, .error _ => isFalse (by intro hc; cases hc)

/-- Lines 107–286 of `app.py` taken as a whole: build the document and
return `pdf.output(dest="S").encode("latin-1")`.  The serialization is
performed by the PyFPDF library, which embeds the render-time clock
reading `env.now` as the `/CreationDate` of the byte stream. -/
def create_pdf_output (env : RenderEnv) (wrap : String → Nat)
    (data : ResumeRecord) : Except RenderErr (List Nat) :=
  match create_pdf env wrap data with
  | .error e => .error e
  | .ok doc => .ok (serializePdf env.now doc)

/-- The delimiter class of `re.split(r'[,\n;]+', text)`. -/
def isSkillDelim (c : Char) : Bool := c = ',' || c = '\n' || c = ';'

/-- The whitespace stripped by Python `str.strip()` (ASCII range). -/
def isPySpace (c : Char) : Bool :=
  c = ' ' || c = '\t' || c = '\n' || c = '\r' ||
  c = Char.ofNat 11 || c = Char.ofNat 12

/-- Python `str.strip()` on a character list. -/
def trimChars (cs : List Char) : List Char :=
  ((cs.dropWhile isPySpace).reverse.dropWhile isPySpace).reverse

/-- Python `str.strip()` on a string. -/
def pyStrip (s : String) : String := String.mk (trimChars s.toList)

/-- Split at every single delimiter character (what `re.split` with a
single-character class would do piecewise): adjacent delimiters contribute
empty pieces, which the caller filters away. -/
def splitChars (p : Char → Bool) : List Char → List (List Char)
  | [] => [[]]
  | c :: cs =>
    match splitChars p cs with
    | [] => [[]]
    | t :: ts => if p c then [] :: t :: ts else (c :: t) :: ts

/-- Split at maximal runs of delimiter characters, the semantics of the
one-or-more regex class `[,\n;]+` and of the spec's "split on any run". -/
def runSplitChars (p : Char → Bool) : List Char → List (List Char)
  | [] => [[]]
  | c :: cs =>
    match runSplitChars p cs with
    | [] => [[]]
    | t :: ts =>
      if p c then
        match t with
        | [] => [] :: ts
        | _ :: _ => [] :: t :: ts
      else (c :: t) :: ts

/-- `clean_split_skills(text)` from `app.py`: `None` gives the empty set;
otherwise lowercase, `re.split(r'[,\n;]+', ...)`, keep the stripped
non-empty pieces, and return them as a set. -/
def clean_split_skills (text : Option String) : Finset String :=
  match text with
  | none => ∅
  | some text =>
    let lowered := pyLower text
    let parts := splitChars isSkillDelim lowered.toList
    let kept := (parts.filter (fun p => trimChars p ≠ [])).map trimChars
    (kept.map (fun cs => String.mk cs)).toFinset

/-- The normalizer as the spec words it ("lowercase the input, split on any
run of comma, semicolon, or newline characters, trim whitespace from each
piece, discard empty pieces, and return the remaining pieces as a set"),
kept as a separate definition to compare against `clean_split_skills`. -/
def normalizeSpec (text : Option String) : Finset String :=
  match text with
  | none => ∅
  | some s =>
    let parts := runSplitChars isSkillDelim (pyLower s).toList
    let kept := (parts.map trimChars).filter (fun p => p ≠ [])
    (kept.map (fun cs => String.mk cs)).toFinset

/-- An uploaded file: its declared name and raw byte content. -/
structure UploadedFile where
  name : String
  content : List Nat
deriving DecidableEq, Repr

/-- The exception `PyPDF2.errors.PdfReadError` raised on malformed input. -/
inductive PdfError where
  | pdfReadError (msg : String)
deriving DecidableEq, Repr

/-- `extract_text_from_pdf_bytes(file_bytes)` from `app.py`, parametrised by
the external PyPDF2 reader `pdfReadPages` (which either yields the per-page
extracted text, `none` standing for a page whose `extract_text()` returned
nothing, or raises).  Per-page text is defaulted to `""` and the pages are
joined with newlines; a reader exception propagates — there is no handler. -/
def extract_text_from_pdf_bytes
    (pdfReadPages : List Nat → Except PdfError (List (Option String)))
    (file_bytes : List Nat) : Except PdfError String :=
  match pdfReadPages file_bytes with
  | .error e => .error e
  | .ok pages => .ok (String.intercalate "\n" (pages.map (fun t => t.getD "")))

/-- `parse_uploaded_resume(uploaded_file)` from `app.py`, parametrised by the
PyPDF2 reader and by the total UTF-8 decoder `decodeUtf8Ignore` (Python
`bytes.decode("utf-8", errors="ignore")` never raises, so the `try` around
it is dead code).  The file name is lowercased before the suffix tests. -/
def parse_uploaded_resume
    (pdfReadPages : List Nat → Except PdfError (List (Option String)))
    (decodeUtf8Ignore : List Nat → String)
    (uploaded_file : Option UploadedFile) : Except PdfError String :=
  match uploaded_file with
  | none => .ok ""
  | some f =>
    let name := pyLower f.name
    let content := f.content
    if pyEndsWith name ".pdf" then
      extract_text_from_pdf_bytes pdfReadPages content
    else if pyEndsWith name ".txt" then
      .ok (decodeUtf8Ignore content)
    else
      .ok ""

/-- JSON values, the result type of the modelled `json.loads`. -/
inductive JVal where
  | jnull
  | jbool (b : Bool)
  | jnum (n : Int)
  | jstr (s : String)
  | jarr (elems : List JVal)
  | jobj (members : List (String × JVal))
deriving Repr

/-- Whitespace accepted between JSON tokens. -/
def jsonWs (c : Char) : Bool := c = ' ' || c = '\t' || c = '\n' || c = '\r'

/-- Skip JSON inter-token whitespace. -/
def skipJsonWs (cs : List Char) : List Char := cs.dropWhile jsonWs

/-- Body of a JSON string after the opening quote, with the common
single-character escapes. -/
def parseJStringBody : Nat → List Char → Except String (String × List Char)
  | 0, _ => .error "Unterminated string"
  | _, [] => .error "Unterminated string"
  | fuel + 1, c :: cs =>
    if c = '"' then .ok ("", cs)
    else if c = '\\' then
      match cs with
      | [] => .error "Unterminated string"
      | e :: cs1 =>
        let dec : Except String Char :=
          if e = '"' then .ok '"'
          else if e = '\\' then .ok '\\'
          else if e = '/' then .ok '/'
          else if e = 'n' then .ok '\n'
          else if e = 't' then .ok '\t'
          else if e = 'r' then .ok '\r'
          else if e = 'b' then .ok (Char.ofNat 8)
          else if e = 'f' then .ok (Char.ofNat 12)
          else .error "Invalid escape"
        match dec with
        | .error m => .error m
        | .ok ch =>
          match parseJStringBody fuel cs1 with
          | .error m => .error m
          | .ok (rest, cs2) => .ok (String.mk (ch :: rest.toList), cs2)
    else
      match parseJStringBody fuel cs with
      | .error m => .error m
      | .ok (rest, cs2) => .ok (String.mk (c :: rest.toList), cs2)

/-- A JSON integer literal (the numeric fragment the résumé assessment
actually uses). -/
def parseJNum (cs : List Char) : Except String (Int × List Char) :=
  let negAndRest : Bool × List Char :=
    match cs with
    | c :: rest => if c = '-' then (true, rest) else (false, cs)
    | [] => (false, cs)
  let digits := negAndRest.2.takeWhile Char.isDigit
  let rest := negAndRest.2.dropWhile Char.isDigit
  if digits.isEmpty then .error "Expecting value"
  else
    let n : Nat := digits.foldl (fun acc c => acc * 10 + (c.toNat - 48)) 0
    .ok (if negAndRest.1 then -(n : Int) else (n : Int), rest)

mutual

/-- One JSON value, by recursive descent with explicit fuel. -/
def parseJVal : Nat → List Char → Except String (JVal × List Char)
  | 0, _ => .error "Expecting value"
  | fuel + 1, cs =>
    let cs := skipJsonWs cs
    match cs with
    | [] => .error "Expecting value"
    | c :: rest =>
      if c = lbrace then
        let rest1 := skipJsonWs rest
        match rest1 with
        | c2 :: rest2 =>
          if c2 = rbrace then .ok (.jobj [], rest2)
          else
            match parseJMembers fuel rest1 with
            | .error m => .error m
            | .ok (ms, cs1) => .ok (.jobj ms, cs1)
        | [] => .error "Expecting property name"
      else if c = '[' then
        let rest1 := skipJsonWs rest
        match rest1 with
        | ']' :: rest2 => .ok (.jarr [], rest2)
        | _ :: _ =>
          match parseJElems fuel rest1 with
          | .error m => .error m
          | .ok (es, cs1) => .ok (.jarr es, cs1)
        | [] => .error "Expecting value"
      else if c = '"' then
        match parseJStringBody (rest.length + 1) rest with
        | .error m => .error m
        | .ok (s, cs1) => .ok (.jstr s, cs1)
      else if c = 't' then
        match rest with
        | 'r' :: 'u' :: 'e' :: cs1 => .ok (.jbool true, cs1)
        | _ => .error "Expecting value"
      else if c = 'f' then
        match rest with
        | 'a' :: 'l' :: 's' :: 'e' :: cs1 => .ok (.jbool false, cs1)
        | _ => .error "Expecting value"
      else if c = 'n' then
        match rest with
        | 'u' :: 'l' :: 'l' :: cs1 => .ok (.jnull, cs1)
        | _ => .error "Expecting value"
      else
        match parseJNum cs with
        | .error m => .error m
        | .ok (n, cs1) => .ok (.jnum n, cs1)

/-- The members of a JSON object after its opening brace. -/
def parseJMembers : Nat → List Char →
    Except String (List (String × JVal) × List Char)
  | 0, _ => .error "Expecting property name"
  | fuel + 1, cs =>
    let cs := skipJsonWs cs
    match cs with
    | [] => .error "Expecting property name"
    | c :: rest =>
      if c = '"' then
        match parseJStringBody (rest.length + 1) rest with
        | .error m => .error m
        | .ok (k, cs1) =>
          match skipJsonWs cs1 with
          | ':' :: cs2 =>
            match parseJVal fuel cs2 with
            | .error m => .error m
            | .ok (v, cs3) =>
              match skipJsonWs cs3 with
              | ',' :: cs4 =>
                match parseJMembers fuel cs4 with
                | .error m => .error m
                | .ok (ms, cs5) => .ok ((k, v) :: ms, cs5)
              | c4 :: cs4 =>
                if c4 = rbrace then .ok ([(k, v)], cs4)
                else .error "Expecting delimiter"
              | [] => .error "Expecting delimiter"
          | _ => .error "Expecting colon"
      else .error "Expecting property name"

/-- The elements of a JSON array after its opening bracket. -/
def parseJElems : Nat → List Char → Except String (List JVal × List Char)
  | 0, _ => .error "Expecting value"
  | fuel + 1, cs =>
    match parseJVal fuel cs with
    | .error m => .error m
    | .ok (v, cs1) =>
      match skipJsonWs cs1 with
      | ',' :: cs2 =>
        match parseJElems fuel cs2 with
        | .error m => .error m
        | .ok (es, cs3) => .ok (v :: es, cs3)
      | ']' :: cs2 => .ok ([v], cs2)
      | _ => .error "Expecting delimiter"

end

/-- Model of the external `json.loads`, restricted to the JSON fragment the
assessment exchange exercises (objects, arrays, strings with simple
escapes, integers, booleans, null); any non-JSON input is a parse error, as
is trailing data. -/
def json_loads (cs : List Char) : Except String JVal :=
  match parseJVal (cs.length + 1) cs with
  | .error m => .error m
  | .ok (v, rest) =>
    if (skipJsonWs rest).isEmpty then .ok v else .error "Extra data"

/-- Index of the first occurrence of a character, if any. -/
def charFindIdx (c : Char) : List Char → Option Nat
  | [] => none
  | x :: xs => if x = c then some 0 else (charFindIdx c xs).map (· + 1)

/-- `text.find("{")`: index of the first brace, if any. -/
def strFind (c : Char) (cs : List Char) : Option Nat := charFindIdx c cs

/-- `text.rfind("}")`: index of the last brace, if any. -/
def strRfind (c : Char) (cs : List Char) : Option Nat :=
  match charFindIdx c cs.reverse with
  | none => none
  | some i => some (cs.length - 1 - i)

/-- The JSON-extraction step of `analyze_cv_with_gemini`: when the text has
a first `{` at `start` and a last `}` at `end`, keep `text[start:end+1]`,
otherwise keep the text unchanged. -/
def extractJson (cs : List Char) : List Char :=
  match strFind lbrace cs, strRfind rbrace cs with
  | some st, some en => (cs.take (en + 1)).drop st
  | _, _ => cs

/-- The prompt template of `analyze_cv_with_gemini`, instantiated with the
résumé text truncated to its first 4000 characters. -/
def buildPrompt (cv_text : String) : String :=
  "\n        You are an ATS CV expert and career advisor. Analyze the following resume and return a JSON object with:\n" ++
  "        - score: integer 0–100 (ATS optimization score)\n" ++
  "        - highlights: 1–3 short and brief positive points about the resume\n" ++
  "        - improvements: 3 short and brief suggestions to improve ATS matching\n" ++
  "        - matching_jobs: 3 short job titles that best fit this candidate’s skills and background (e.g., \"Data Analyst\", \"Python Developer\", \"Machine Learning Engineer\")\n\n" ++
  "        Return **only** valid JSON in this structure:\n" ++
  "        \x7b\n" ++
  "            \"score\": 0–100,\n" ++
  "            \"highlights\": [\"...\", \"...\"],\n" ++
  "            \"improvements\": [\"...\", \"...\", \"...\"],\n" ++
  "            \"matching_jobs\": [\"...\", \"...\", \"...\"]\n" ++
  "        \x7d\n\n" ++
  "        Resume Text:\n" ++
  "        \"\"\"" ++ cv_text.take 4000 ++ "\"\"\"\n        "

/-- The body of `analyze_cv_with_gemini` inside its `try`: one synchronous
call to the external service (the oracle `callModel`, whose `.error` case
stands for any raised exception — network failure, missing credential,
non-2xx response), then strip, brace extraction and JSON parsing. -/
def analyzeBody (callModel : String → Except String String)
    (cv_text : String) : Except String JVal :=
  match callModel (buildPrompt cv_text) with
  | .error e => .error e
  | .ok responseText =>
    let text := pyStrip responseText
    json_loads (extractJson text.toList)

/-- The `except Exception` handler of `analyze_cv_with_gemini`: a parsed
value passes through, any exception becomes the single error value carrying
the message `"Gemini request failed: ..."`. -/
def geminiWrap : Except String JVal → Except String JVal
  | .ok v => .ok v
  | .error e => .error ("Gemini request failed: " ++ e)

/-- `analyze_cv_with_gemini(cv_text)` from `app.py`: the body guarded by the
`try`/`except` handler. -/
def analyze_cv_with_gemini (callModel : String → Except String String)
    (cv_text : String) : Except String JVal :=
  geminiWrap (analyzeBody callModel cv_text)

/-- Field lookup on a parsed JSON object. -/
def JVal.lookup : JVal → String → Option JVal
  | .jobj ms, k =>
    match ms.find? (fun m => m.fst == k) with
    | some m => some m.snd
    | none => none
  | _, _ => none

/-! ## Concrete fixtures used by witnesses and counterexamples -/

/-- A concrete ambient environment. -/
def env0 : RenderEnv := { now := 1700000000, entropy := 42 }

/-- A second concrete ambient environment (different clock and entropy). -/
def env1 : RenderEnv := { now := 1700009999, entropy := 7 }

/-- A concrete line-wrapping oracle: every text fits on one line. -/
def wrap1 : String → Nat := fun _ => 1

/-- The record with every scalar field present and empty and every list
field present and empty. -/
def emptyRecord : ResumeRecord :=
  { name := some "", title := some "", email := some "", linkedin := some "",
    github := some "", phone := some "", location := some "", summary := some "",
    skills := some [], experience := some [], education := some [],
    projects := some [], certificates := some [], languages := some [],
    interests := some [] }

/-- A concrete PyPDF2 oracle that succeeds with two pages, the second of
which yields no extractable text. -/
def pp0 : List Nat → Except PdfError (List (Option String)) :=
  fun _ => .ok [some "hello", none]

/-- A concrete total UTF-8 decoder oracle. -/
def dec0 : List Nat → String := fun _ => "decoded text"

/-- PyPDF2 on bytes that are not a PDF (for example `b"not a pdf"`): the
reader constructor raises `PdfReadError("EOF marker not found")`. -/
def badPdfRead : List Nat → Except PdfError (List (Option String)) :=
  fun _ => .error (.pdfReadError "EOF marker not found")

/-- The bytes of `b"not a pdf"`. -/
def notAPdfBytes : List Nat := [110, 111, 116, 32, 97, 32, 112, 100, 102]

/-! ## C1: determinism of the renderer -/

/-- **C1 counterexample.** Two calls of the renderer on the same record at
different wall-clock readings are not byte-identical: PyFPDF's `_putinfo`
embeds a `/CreationDate` read from `datetime.now()`, so the serialized
outputs differ in the embedded timestamp. -/
theorem c1_counterexample_creation_date :
    create_pdf_output env0 wrap1 emptyRecord ≠
      create_pdf_output env1 wrap1 emptyRecord := by
  decide

/-- **C1 amended.** Rendering embeds no randomness, and the document
content — the full command trace and page count — is a deterministic
function of the record alone, independent of clock and entropy; the byte
output depends on the environment only through the embedded
`/CreationDate`: two calls with the same record and the same clock reading
(in particular two calls within one timestamp granule) produce
byte-identical PDF byte strings, whatever the entropy. -/
theorem c1_render_deterministic_amended :
    ∀ (e1 e2 : RenderEnv) (wrap : String → Nat) (r : ResumeRecord),
      create_pdf e1 wrap r = create_pdf e2 wrap r ∧
      (e1.now = e2.now →
        create_pdf_output e1 wrap r = create_pdf_output e2 wrap r) := by
  intro e1 e2 wrap r
  have hcp : create_pdf e1 wrap r = create_pdf e2 wrap r := rfl
  refine ⟨hcp, fun h => ?_⟩
  unfold create_pdf_output
  rw [h, hcp]

/-! ## C5: the assessment client never raises -/

/-- **C5.** For every input text and every behaviour of the external
service oracle — including a raised network error and any malformed
response body — `analyze_cv_with_gemini` returns a value: either a parsed
assessment or the single error value whose message starts with
`"Gemini request failed: "`; no exception escapes.  The second conjunct
exercises the unbalanced-brace case concretely. -/
theorem c5_analyze_total :
    (∀ (callModel : String → Except String String) (cv_text : String),
      (∃ v, analyze_cv_with_gemini callModel cv_text = .ok v) ∨
      (∃ e, analyze_cv_with_gemini callModel cv_text =
        .error ("Gemini request failed: " ++ e))) ∧
    (∃ e, analyze_cv_with_gemini (fun _ => .ok "Sure! \x7b \"score\": 91, ")
      "resume" = .error ("Gemini request failed: " ++ e)) := by
  constructor
  · intro callModel cv_text
    unfold analyze_cv_with_gemini geminiWrap
    cases analyzeBody callModel cv_text with
    | ok v => exact Or.inl ⟨v, rfl⟩
    | error e => exact Or.inr ⟨e, rfl⟩
  · exact ⟨"Expecting value", rfl⟩

/-! ## C6: brace extraction in the assessment client -/

/-- `charFindIdx` over an occurrence-free prefix: the index shifts by the
prefix length. -/
theorem charFindIdx_append_not_mem {c : Char} {l1 : List Char}
    (h : c ∉ l1) (l2 : List Char) :
    charFindIdx c (l1 ++ l2) = (charFindIdx c l2).map (fun i => l1.length + i) := by
  induction l1 with
  | nil =>
    cases hf : charFindIdx c l2 <;> simp [hf]
  | cons x xs ih =>
    have hx : ¬(x = c) := fun hxc => h (by simp [hxc])
    have hxs : c ∉ xs := fun hm => h (List.mem_cons_of_mem _ hm)
    cases hf : charFindIdx c l2 with
    | none => simp [charFindIdx, hx, ih hxs, hf]
    | some v =>
      simp [charFindIdx, hx, ih hxs, hf]
      omega

/-- The find/rfind slice of `analyze_cv_with_gemini`: in a text made of a
brace-free prefix, a body that starts with a left brace and ends with a
right brace, and a suffix free of right braces, the extracted substring is
exactly the body. -/
theorem extractJson_embedded (pre body post : List Char)
    (hpre : lbrace ∉ pre) (hpost : rbrace ∉ post)
    (hhead : body.head? = some lbrace) (hlast : body.getLast? = some rbrace) :
    extractJson (pre ++ body ++ post) = body := by
  obtain ⟨tl, hb⟩ : ∃ tl, body = lbrace :: tl := by
    cases body with
    | nil => cases hhead
    | cons b bs =>
      rw [List.head?_cons, Option.some.injEq] at hhead
      exact ⟨bs, by rw [hhead]⟩
  obtain ⟨tr, hr⟩ : ∃ tr, body.reverse = rbrace :: tr := by
    have hh : body.reverse.head? = some rbrace := by
      rw [List.head?_reverse]; exact hlast
    cases hrev : body.reverse with
    | nil => rw [hrev] at hh; cases hh
    | cons b bs =>
      rw [hrev, List.head?_cons, Option.some.injEq] at hh
      exact ⟨bs, by rw [hh]⟩
  have hbodylen : 1 ≤ body.length := by rw [hb]; simp
  have hfind : strFind lbrace (pre ++ body ++ post) = some pre.length := by
    unfold strFind
    rw [List.append_assoc, charFindIdx_append_not_mem hpre, hb]
    simp [charFindIdx]
  have hpost' : rbrace ∉ post.reverse := by simpa using hpost
  have hcf : charFindIdx rbrace (pre ++ body ++ post).reverse =
      some post.length := by
    have hrev2 : (pre ++ body ++ post).reverse =
        post.reverse ++ (body.reverse ++ pre.reverse) := by
      simp [List.reverse_append, List.append_assoc]
    rw [hrev2, charFindIdx_append_not_mem hpost', hr]
    simp [charFindIdx]
  have hrfind : strRfind rbrace (pre ++ body ++ post) =
      some (pre.length + body.length - 1) := by
    have hlen : (pre ++ body ++ post).length =
        pre.length + body.length + post.length := by
      rw [List.length_append, List.length_append]
    unfold strRfind
    rw [hcf]
    show some ((pre ++ body ++ post).length - 1 - post.length) =
      some (pre.length + body.length - 1)
    rw [Option.some.injEq, hlen]
    omega
  have hsl : extractJson (pre ++ body ++ post) =
      ((pre ++ body ++ post).take (pre.length + body.length - 1 + 1)).drop
        pre.length := by
    unfold extractJson
    rw [hfind, hrfind]
  rw [hsl]
  have h1 : pre.length + body.length - 1 + 1 = (pre ++ body).length := by
    rw [List.length_append]; omega
  rw [h1, List.take_left, List.drop_left]

/-- **C6.** For every service response text decomposing into a prefix with
no `{`, a JSON body starting with `{` and ending with `}`, and a suffix
with no `}`, the client treats exactly the body — first `{` through last
`}` inclusive — as the JSON payload and parses it, tolerating the
surrounding prose.  (Its witness instantiates this at the spec's example
response and checks `score == 72` and the three job titles.) -/
theorem c6_brace_extraction :
    ∀ (callModel : String → Except String String) (cv_text raw : String)
      (pre body post : List Char),
      callModel (buildPrompt cv_text) = .ok raw →
      (pyStrip raw).toList = pre ++ body ++ post →
      lbrace ∉ pre → rbrace ∉ post →
      body.head? = some lbrace → body.getLast? = some rbrace →
      analyze_cv_with_gemini callModel cv_text =
        geminiWrap (json_loads body) := by
  intro cm cv raw pre body post hcm htrim hpre hpost hhead hlast
  unfold analyze_cv_with_gemini analyzeBody
  rw [hcm]
  show geminiWrap (json_loads (extractJson (pyStrip raw).toList)) =
    geminiWrap (json_loads body)
  rw [htrim, extractJson_embedded pre body post hpre hpost hhead hlast]

/-- The JSON body of the spec's example service response. -/
def exampleJsonPart : String :=
  "\x7b\"score\": 72, \"highlights\": [\"Clear structure\"], \"improvements\": [\"Add metrics\",\"Add keywords\",\"Shorten summary\"], \"matching_jobs\": [\"Data Analyst\",\"Backend Developer\",\"QA Engineer\"]\x7d"

/-- The spec's example service response: the JSON wrapped in prose. -/
def exampleResponse : String := "Here you go: " ++ exampleJsonPart ++ " Thanks!"

/-- The assessment the example response must parse to. -/
def exampleAssessment : JVal :=
  .jobj [("score", .jnum 72),
         ("highlights", .jarr [.jstr "Clear structure"]),
         ("improvements", .jarr [.jstr "Add metrics", .jstr "Add keywords",
           .jstr "Shorten summary"]),
         ("matching_jobs", .jarr [.jstr "Data Analyst",
           .jstr "Backend Developer", .jstr "QA Engineer"])]

set_option maxRecDepth 100000 in
/-- **C6 witness.** The spec's example response, surrounded by
"Here you go: " and " Thanks!", parses to the assessment with score 72 and
the three listed job titles. -/
theorem c6_brace_extraction_witness :
    analyze_cv_with_gemini (fun _ => .ok exampleResponse) "resume" =
      .ok exampleAssessment ∧
    exampleAssessment.lookup "score" = some (.jnum 72) ∧
    exampleAssessment.lookup "matching_jobs" =
      some (.jarr [.jstr "Data Analyst", .jstr "Backend Developer",
        .jstr "QA Engineer"]) := by
  have h := c6_brace_extraction (fun _ => .ok exampleResponse) "resume"
    exampleResponse "Here you go: ".toList exampleJsonPart.toList
    " Thanks!".toList rfl (by decide) (by decide) (by decide) (by decide)
    (by decide)
  exact ⟨h.trans (by rfl), rfl, rfl⟩

/-! ## C9: the skill normalizer -/

/-- Keeping the pieces that are non-empty after stripping and then
stripping them is the same as stripping every piece and keeping the
non-empty results. -/
theorem filter_trim_comm (l : List (List Char)) :
    ((l.map trimChars).filter (fun p => p ≠ [])) =
      (l.filter (fun p => trimChars p ≠ [])).map trimChars := by
  induction l with
  | nil => rfl
  | cons a l ih =>
    by_cases h : trimChars a = [] <;> simp [h] <;> simpa using ih

/-- Character-wise splitting and maximal-run splitting agree piece by
piece once pieces rejected by a filter that drops `[]` are discarded:
the two splits always share their first piece, and their tails agree
after the filter. -/
theorem splitChars_runSplit_core (p : Char → Bool) (q : List Char → Bool)
    (hq : q [] = false) (cs : List Char) :
    ∃ t ts ts', splitChars p cs = t :: ts ∧ runSplitChars p cs = t :: ts' ∧
      ts.filter q = ts'.filter q := by
  induction cs with
  | nil => exact ⟨[], [], [], rfl, rfl, rfl⟩
  | cons c cs ih =>
    obtain ⟨t, ts, ts', h1, h2, h3⟩ := ih
    by_cases hc : p c = true
    · cases t with
      | nil =>
        refine ⟨[], [] :: ts, ts', ?_, ?_, ?_⟩
        · simp [splitChars, h1, hc]
        · simp [runSplitChars, h2, hc]
        · rw [List.filter_cons]
          simp [hq, h3]
      | cons a t' =>
        refine ⟨[], (a :: t') :: ts, (a :: t') :: ts', ?_, ?_, ?_⟩
        · simp [splitChars, h1, hc]
        · simp [runSplitChars, h2, hc]
        · rw [List.filter_cons, List.filter_cons]
          cases q (a :: t') <;> simp [h3]
    · refine ⟨c :: t, ts, ts', ?_, ?_, h3⟩
      · simp [splitChars, h1, hc]
      · simp [runSplitChars, h2, hc]

/-- After a filter that drops `[]`, the character-wise split and the
maximal-run split coincide. -/
theorem splitChars_filter_eq (p : Char → Bool) (q : List Char → Bool)
    (hq : q [] = false) (cs : List Char) :
    (splitChars p cs).filter q = (runSplitChars p cs).filter q := by
  obtain ⟨t, ts, ts', h1, h2, h3⟩ := splitChars_runSplit_core p q hq cs
  rw [h1, h2, List.filter_cons, List.filter_cons, h3]

/-- The kept pieces of `clean_split_skills` equal the spec's pipeline:
strip every maximal-run piece, then drop the empty results. -/
theorem clean_split_pieces_eq (cs : List Char) :
    ((splitChars isSkillDelim cs).filter
        (fun p => trimChars p ≠ [])).map trimChars =
      ((runSplitChars isSkillDelim cs).map trimChars).filter
        (fun p => p ≠ []) := by
  rw [filter_trim_comm,
    splitChars_filter_eq isSkillDelim (fun p => trimChars p ≠ [])
      (by simp [trimChars]) cs]

/-- **C9.** `clean_split_skills` on `None` yields the empty set; on any
string it yields exactly the set the spec describes — lowercase, split on
maximal runs of comma/semicolon/newline, strip each piece, discard empty
pieces, collect into a set (`normalizeSpec`); and the spec's example input
yields exactly `{"python", "java"}`. -/
theorem c9_clean_split_skills :
    clean_split_skills none = ∅ ∧
    (∀ t, clean_split_skills t = normalizeSpec t) ∧
    clean_split_skills (some "Python, python ; Java\nJava") =
      ({"python", "java"} : Finset String) := by
  refine ⟨rfl, ?_, by decide⟩
  intro t
  cases t with
  | none => rfl
  | some s =>
    simp only [clean_split_skills, normalizeSpec, clean_split_pieces_eq]

/-! ## C10: case-insensitive extension dispatch -/

/-- **C10.** The extractor's dispatch is case-insensitive: two file names
with the same lowercasing are treated identically, a name ending in
`.PDF` is parsed as a PDF, and a name ending in `.TxT` is decoded as text,
exactly as for the lowercase extensions. -/
theorem c10_extension_case_insensitive :
    ∀ (pdfReadPages : List Nat → Except PdfError (List (Option String)))
      (decodeUtf8Ignore : List Nat → String) (bytes : List Nat)
      (n1 n2 : String), pyLower n1 = pyLower n2 →
      (parse_uploaded_resume pdfReadPages decodeUtf8Ignore
          (some ⟨n1, bytes⟩) =
        parse_uploaded_resume pdfReadPages decodeUtf8Ignore
          (some ⟨n2, bytes⟩)) ∧
      parse_uploaded_resume pdfReadPages decodeUtf8Ignore
          (some ⟨"resume.PDF", bytes⟩) =
        extract_text_from_pdf_bytes pdfReadPages bytes ∧
      parse_uploaded_resume pdfReadPages decodeUtf8Ignore
          (some ⟨"notes.TxT", bytes⟩) = .ok (decodeUtf8Ignore bytes) := by
  intro pp d bytes n1 n2 h
  refine ⟨?_, rfl, rfl⟩
  simp only [parse_uploaded_resume, h]

/-- **C10 witness.** A concrete mixed-case PDF name is handled exactly as
its lowercase form. -/
theorem c10_extension_case_insensitive_witness :
    parse_uploaded_resume pp0 dec0 (some ⟨"CV.Pdf", notAPdfBytes⟩) =
      parse_uploaded_resume pp0 dec0 (some ⟨"cv.pdf", notAPdfBytes⟩) :=
  (c10_extension_case_insensitive pp0 dec0 notAPdfBytes "CV.Pdf" "cv.pdf"
    rfl).1

/-! ## C2: extraction error handling -/

/-- **C2 counterexample.** The claim "extraction never raises to the
caller" fails on the code: for the concrete upload `resume.pdf` whose
bytes are not a PDF (`b"not a pdf"`, on which the PyPDF2 reader raises
`PdfReadError`), `parse_uploaded_resume` has no handler and the exception
propagates instead of degrading to empty or partial text. -/
theorem c2_counterexample_pdf_exception :
    parse_uploaded_resume badPdfRead dec0
        (some ⟨"resume.pdf", notAPdfBytes⟩) =
      .error (.pdfReadError "EOF marker not found") := rfl

/-- **C2 amended.** Extraction returns a string for every uploaded file
whose name does not end in `.pdf` (after lowercasing), and for `.pdf`
names exactly when the PyPDF2 byte parser succeeds on the content; a
reader exception on a `.pdf` name propagates to the caller.  Per-page
extraction failures inside a successfully opened PDF still degrade to
empty text, and `.txt` decoding never raises. -/
theorem c2_extraction_amended :
    ∀ (pdfReadPages : List Nat → Except PdfError (List (Option String)))
      (decodeUtf8Ignore : List Nat → String) (uf : Option UploadedFile),
      (∃ s, parse_uploaded_resume pdfReadPages decodeUtf8Ignore uf =
        .ok s) ↔
      (∀ f, uf = some f → pyEndsWith (pyLower f.name) ".pdf" = true →
        ∃ pages, pdfReadPages f.content = .ok pages) := by
  intro pp d uf
  cases uf with
  | none =>
    constructor
    · intro _ f hf
      cases hf
    · intro _
      exact ⟨"", rfl⟩
  | some f =>
    by_cases hpdf : pyEndsWith (pyLower f.name) ".pdf" = true
    · constructor
      · rintro ⟨s, hs⟩ f' hf' _
        injection hf' with hff
        subst hff
        simp only [parse_uploaded_resume, hpdf, if_true] at hs
        unfold extract_text_from_pdf_bytes at hs
        cases hp : pp f.content with
        | error e => rw [hp] at hs; cases hs
        | ok pages => exact ⟨pages, rfl⟩
      · intro hb
        obtain ⟨pages, hp⟩ := hb f rfl hpdf
        refine ⟨String.intercalate "\n" (pages.map (fun t => t.getD "")), ?_⟩
        simp only [parse_uploaded_resume, hpdf, if_true]
        unfold extract_text_from_pdf_bytes
        rw [hp]
    · constructor
      · intro _ f' hf' hp
        injection hf' with hff
        subst hff
        exact absurd hp hpdf
      · intro _
        by_cases htxt : pyEndsWith (pyLower f.name) ".txt" = true
        · exact ⟨d f.content, by simp [parse_uploaded_resume, hpdf, htxt]⟩
        · exact ⟨"", by simp [parse_uploaded_resume, hpdf, htxt]⟩

/-! ## Renderer observations: section headings and text content -/

/-- A command's section-heading text: exactly the cells of height 10 (the
heading cells; every other cell the renderer emits has height 4, 5, 6 or
8, and `multi_cell` output is a different command). -/
def headOf : Cmd → Option String
  | .cell _ h t _ _ => if h = 10 then some t else none
  | _ => none

/-- The section headings of a command trace, in emission order. -/
def headingsOf (cs : List Cmd) : List String := cs.filterMap headOf

/-- A command's text content (cells and multi-cells). -/
def textOf : Cmd → Option String
  | .cell _ _ t _ _ => some t
  | .multiCell _ _ t _ => some t
  | _ => none

/-- All text the document shows, in emission order. -/
def textsOf (cs : List Cmd) : List String := cs.filterMap textOf

@[simp] theorem headingsOf_append (a b : List Cmd) :
    headingsOf (a ++ b) = headingsOf a ++ headingsOf b := by
  simp [headingsOf]

@[simp] theorem headingsOf_pdfCell (w h : Nat) (txt : String) (ln : Bool)
    (al : String) (s : PdfState) :
    headingsOf (pdfCell w h txt ln al s).cmds =
      headingsOf s.cmds ++ (if h = 10 then [txt] else []) := by
  by_cases hb : pageBreakTrigger < s.y + h <;>
    by_cases hh : h = 10 <;>
      simp [pdfCell, headingsOf, headOf, hb, hh]

@[simp] theorem headingsOf_pdfSetFont (f st : String) (sz : Nat)
    (s : PdfState) :
    headingsOf (pdfSetFont f st sz s).cmds = headingsOf s.cmds := by
  simp [pdfSetFont, headingsOf, headOf]

@[simp] theorem headingsOf_pdfSetDrawColor (r g b : Nat) (s : PdfState) :
    headingsOf (pdfSetDrawColor r g b s).cmds = headingsOf s.cmds := by
  simp [pdfSetDrawColor, headingsOf, headOf]

@[simp] theorem headingsOf_pdfLn (h : Nat) (s : PdfState) :
    headingsOf (pdfLn h s).cmds = headingsOf s.cmds := by
  simp [pdfLn, headingsOf, headOf]

@[simp] theorem headingsOf_pdfLine (x1 y1 x2 y2 : Nat) (s : PdfState) :
    headingsOf (pdfLine x1 y1 x2 y2 s).cmds = headingsOf s.cmds := by
  simp [pdfLine, headingsOf, headOf]

@[simp] theorem headingsOf_pdfMultiAdvance (h n : Nat) (s : PdfState) :
    headingsOf (pdfMultiAdvance h n s).cmds = headingsOf s.cmds := by
  induction n generalizing s with
  | zero => rfl
  | succ n ih =>
    rw [pdfMultiAdvance, ih]
    by_cases hb : pageBreakTrigger < s.y + h <;>
      simp [headingsOf, headOf, hb]

@[simp] theorem headingsOf_pdfMultiCell (wrap : String → Nat) (w h : Nat)
    (txt al : String) (s : PdfState) :
    headingsOf (pdfMultiCell wrap w h txt al s).cmds = headingsOf s.cmds := by
  unfold pdfMultiCell
  rw [headingsOf_pdfMultiAdvance]
  simp [headingsOf, headOf]

@[simp] theorem headingsOf_sectionHeading (t : String) (s : PdfState) :
    headingsOf (sectionHeading t s).cmds = headingsOf s.cmds ++ [t] := by
  simp [sectionHeading]

@[simp] theorem headingsOf_initPdf : headingsOf initPdf.cmds = [] := rfl

@[simp] theorem headingsOf_renderNameHeader (n : String) (s : PdfState) :
    headingsOf (renderNameHeader n s).cmds = headingsOf s.cmds := by
  simp [renderNameHeader]

@[simp] theorem headingsOf_renderContact (wrap : String → Nat)
    (e l g ph lo : Option String) (s : PdfState) :
    headingsOf (renderContact wrap e l g ph lo s).cmds =
      headingsOf s.cmds := by
  simp only [renderContact]
  split_ifs <;> simp

theorem headingsOf_renderSummary (wrap : String → Nat) (t : String)
    (s : PdfState) :
    headingsOf (renderSummary wrap t s).cmds =
      headingsOf s.cmds ++ (if t = "" then [] else ["Profile Summary"]) := by
  unfold renderSummary
  split_ifs with h <;> simp [h]

theorem headingsOf_renderSkills (wrap : String → Nat) (sk : List String)
    (s : PdfState) :
    headingsOf (renderSkills wrap sk s).cmds =
      headingsOf s.cmds ++ ["Skills"] := by
  unfold renderSkills
  by_cases h : sk.isEmpty <;> simp [h]

theorem headingsOf_renderAdditional (languages interests : List String)
    (s : PdfState) :
    headingsOf (renderAdditional languages interests s).cmds =
      headingsOf s.cmds ++
        (if languages.isEmpty && interests.isEmpty then []
         else ["Additional Information"]) := by
  unfold renderAdditional
  by_cases h : languages.isEmpty && interests.isEmpty
  · simp [h]
  · by_cases hl : languages.isEmpty <;> by_cases hi : interests.isEmpty <;>
      simp [h, hl, hi]

/-! ## Success conditions for the entry loops -/

/-- An experience entry whose directly-indexed keys (`title`,
`start_date`, `end_date`, `company`) are present renders without raising,
and contributes no heading cell. -/
theorem renderExpEntry_ok (wrap : String → Nat) (e : ExpEntry) (s : PdfState)
    (h1 : e.title.isSome = true) (h2 : e.company.isSome = true)
    (h3 : e.start_date.isSome = true) (h4 : e.end_date.isSome = true) :
    ∃ s', renderExpEntry wrap e s = .ok s' ∧
      headingsOf s'.cmds = headingsOf s.cmds := by
  obtain ⟨t, ht⟩ := Option.isSome_iff_exists.mp h1
  obtain ⟨c, hc⟩ := Option.isSome_iff_exists.mp h2
  obtain ⟨sd, hsd⟩ := Option.isSome_iff_exists.mp h3
  obtain ⟨ed, hed⟩ := Option.isSome_iff_exists.mp h4
  unfold renderExpEntry
  rw [ht, hc, hsd, hed]
  simp only [getKey]
  refine ⟨_, rfl, ?_⟩
  by_cases hd : pyTruthy e.description = true <;> simp [hd]

/-- The experience loop succeeds on entries with the required keys and
emits no heading cell. -/
theorem renderExpList_ok (wrap : String → Nat) (es : List ExpEntry) :
    ∀ s : PdfState,
      (∀ e ∈ es, e.title.isSome = true ∧ e.company.isSome = true ∧
        e.start_date.isSome = true ∧ e.end_date.isSome = true) →
      ∃ s', renderExpList wrap es s = .ok s' ∧
        headingsOf s'.cmds = headingsOf s.cmds := by
  induction es with
  | nil => exact fun s _ => ⟨s, rfl, rfl⟩
  | cons e es ih =>
    intro s hall
    obtain ⟨h1, h2, h3, h4⟩ := hall e (List.mem_cons_self e es)
    obtain ⟨s1, hs1, hh1⟩ := renderExpEntry_ok wrap e s h1 h2 h3 h4
    obtain ⟨s2, hs2, hh2⟩ := ih s1 (fun x hx => hall x (List.mem_cons_of_mem e hx))
    exact ⟨s2, by simp only [renderExpList, hs1, hs2], hh2.trans hh1⟩

/-- An education entry whose directly-indexed keys (`degree`,
`start_date`, `end_date`, `university`) are present renders without
raising, and contributes no heading cell. -/
theorem renderEduEntry_ok (wrap : String → Nat) (e : EduEntry) (s : PdfState)
    (h1 : e.degree.isSome = true) (h2 : e.university.isSome = true)
    (h3 : e.start_date.isSome = true) (h4 : e.end_date.isSome = true) :
    ∃ s', renderEduEntry wrap e s = .ok s' ∧
      headingsOf s'.cmds = headingsOf s.cmds := by
  obtain ⟨d, hd⟩ := Option.isSome_iff_exists.mp h1
  obtain ⟨u, hu⟩ := Option.isSome_iff_exists.mp h2
  obtain ⟨sd, hsd⟩ := Option.isSome_iff_exists.mp h3
  obtain ⟨ed, hed⟩ := Option.isSome_iff_exists.mp h4
  unfold renderEduEntry
  rw [hd, hu, hsd, hed]
  simp only [getKey]
  refine ⟨_, rfl, ?_⟩
  by_cases hc : pyTruthy e.cgpa = true <;>
    by_cases hde : pyTruthy e.description = true <;> simp [hc, hde]

/-- The education loop succeeds on entries with the required keys. -/
theorem renderEduList_ok (wrap : String → Nat) (es : List EduEntry) :
    ∀ s : PdfState,
      (∀ e ∈ es, e.degree.isSome = true ∧ e.university.isSome = true ∧
        e.start_date.isSome = true ∧ e.end_date.isSome = true) →
      ∃ s', renderEduList wrap es s = .ok s' ∧
        headingsOf s'.cmds = headingsOf s.cmds := by
  induction es with
  | nil => exact fun s _ => ⟨s, rfl, rfl⟩
  | cons e es ih =>
    intro s hall
    obtain ⟨h1, h2, h3, h4⟩ := hall e (List.mem_cons_self e es)
    obtain ⟨s1, hs1, hh1⟩ := renderEduEntry_ok wrap e s h1 h2 h3 h4
    obtain ⟨s2, hs2, hh2⟩ := ih s1 (fun x hx => hall x (List.mem_cons_of_mem e hx))
    exact ⟨s2, by simp only [renderEduList, hs1, hs2], hh2.trans hh1⟩

/-- A project entry whose directly-indexed keys (`title`, `start_date`,
`end_date`) are present renders without raising. -/
theorem renderProjEntry_ok (wrap : String → Nat) (p : ProjEntry) (s : PdfState)
    (h1 : p.title.isSome = true) (h3 : p.start_date.isSome = true)
    (h4 : p.end_date.isSome = true) :
    ∃ s', renderProjEntry wrap p s = .ok s' ∧
      headingsOf s'.cmds = headingsOf s.cmds := by
  obtain ⟨t, ht⟩ := Option.isSome_iff_exists.mp h1
  obtain ⟨sd, hsd⟩ := Option.isSome_iff_exists.mp h3
  obtain ⟨ed, hed⟩ := Option.isSome_iff_exists.mp h4
  unfold renderProjEntry
  rw [ht, hsd, hed]
  simp only [getKey]
  refine ⟨_, rfl, ?_⟩
  by_cases hc : pyTruthy p.company = true <;>
    by_cases hb : pyTruthy p.budget = true <;>
      by_cases hde : pyTruthy p.description = true <;> simp [hc, hb, hde]

/-- The projects loop succeeds on entries with the required keys. -/
theorem renderProjList_ok (wrap : String → Nat) (ps : List ProjEntry) :
    ∀ s : PdfState,
      (∀ p ∈ ps, p.title.isSome = true ∧ p.start_date.isSome = true ∧
        p.end_date.isSome = true) →
      ∃ s', renderProjList wrap ps s = .ok s' ∧
        headingsOf s'.cmds = headingsOf s.cmds := by
  induction ps with
  | nil => exact fun s _ => ⟨s, rfl, rfl⟩
  | cons p ps ih =>
    intro s hall
    obtain ⟨h1, h3, h4⟩ := hall p (List.mem_cons_self p ps)
    obtain ⟨s1, hs1, hh1⟩ := renderProjEntry_ok wrap p s h1 h3 h4
    obtain ⟨s2, hs2, hh2⟩ := ih s1 (fun x hx => hall x (List.mem_cons_of_mem p hx))
    exact ⟨s2, by simp only [renderProjList, hs1, hs2], hh2.trans hh1⟩

/-- A certificate entry whose directly-indexed keys (`title`, `date`,
`organization`) are present renders without raising. -/
theorem renderCertEntry_ok (c : CertEntry) (s : PdfState)
    (h1 : c.title.isSome = true) (h2 : c.organization.isSome = true)
    (h3 : c.date.isSome = true) :
    ∃ s', renderCertEntry c s = .ok s' ∧
      headingsOf s'.cmds = headingsOf s.cmds := by
  obtain ⟨t, ht⟩ := Option.isSome_iff_exists.mp h1
  obtain ⟨o, ho⟩ := Option.isSome_iff_exists.mp h2
  obtain ⟨d, hd⟩ := Option.isSome_iff_exists.mp h3
  unfold renderCertEntry
  rw [ht, ho, hd]
  simp only [getKey]
  exact ⟨_, rfl, by simp⟩

/-- The certificates loop succeeds on entries with the required keys. -/
theorem renderCertList_ok (cs : List CertEntry) :
    ∀ s : PdfState,
      (∀ c ∈ cs, c.title.isSome = true ∧ c.organization.isSome = true ∧
        c.date.isSome = true) →
      ∃ s', renderCertList cs s = .ok s' ∧
        headingsOf s'.cmds = headingsOf s.cmds := by
  induction cs with
  | nil => exact fun s _ => ⟨s, rfl, rfl⟩
  | cons c cs ih =>
    intro s hall
    obtain ⟨h1, h2, h3⟩ := hall c (List.mem_cons_self c cs)
    obtain ⟨s1, hs1, hh1⟩ := renderCertEntry_ok c s h1 h2 h3
    obtain ⟨s2, hs2, hh2⟩ := ih s1 (fun x hx => hall x (List.mem_cons_of_mem c hx))
    exact ⟨s2, by simp only [renderCertList, hs1, hs2], hh2.trans hh1⟩

/-- A non-empty list is not `isEmpty`. -/
theorem isEmpty_false_of_ne_nil {α : Type} {l : List α} (h : l ≠ []) :
    l.isEmpty = false := by
  cases l with
  | nil => exact absurd rfl h
  | cons a l => rfl

/-- The Experience section succeeds on well-keyed entries and contributes
its heading exactly when the list is non-empty. -/
theorem renderExperience_ok (wrap : String → Nat) (es : List ExpEntry)
    (s : PdfState)
    (hall : ∀ e ∈ es, e.title.isSome = true ∧ e.company.isSome = true ∧
      e.start_date.isSome = true ∧ e.end_date.isSome = true) :
    ∃ s', renderExperience wrap es s = .ok s' ∧
      headingsOf s'.cmds =
        headingsOf s.cmds ++ (if es.isEmpty then [] else ["Experience"]) := by
  by_cases he : es.isEmpty = true
  · exact ⟨s, by simp [renderExperience, he], by simp [he]⟩
  · obtain ⟨s', hs1, hh1⟩ := renderExpList_ok wrap es
      (pdfSetFont "Helvetica" "" 12 (sectionHeading "Experience" s)) hall
    refine ⟨s', by simp [renderExperience, he, hs1], ?_⟩
    rw [hh1]
    simp [he]

/-- The Education section succeeds on well-keyed entries and contributes
its heading exactly when the list is non-empty. -/
theorem renderEducation_ok (wrap : String → Nat) (es : List EduEntry)
    (s : PdfState)
    (hall : ∀ e ∈ es, e.degree.isSome = true ∧ e.university.isSome = true ∧
      e.start_date.isSome = true ∧ e.end_date.isSome = true) :
    ∃ s', renderEducation wrap es s = .ok s' ∧
      headingsOf s'.cmds =
        headingsOf s.cmds ++ (if es.isEmpty then [] else ["Education"]) := by
  by_cases he : es.isEmpty = true
  · exact ⟨s, by simp [renderEducation, he], by simp [he]⟩
  · obtain ⟨s', hs1, hh1⟩ := renderEduList_ok wrap es
      (pdfSetFont "Helvetica" "" 12 (sectionHeading "Education" s)) hall
    refine ⟨s', by simp [renderEducation, he, hs1], ?_⟩
    rw [hh1]
    simp [he]

/-- The Projects section succeeds on well-keyed entries and contributes
its heading exactly when the list is non-empty. -/
theorem renderProjects_ok (wrap : String → Nat) (ps : List ProjEntry)
    (s : PdfState)
    (hall : ∀ p ∈ ps, p.title.isSome = true ∧ p.start_date.isSome = true ∧
      p.end_date.isSome = true) :
    ∃ s', renderProjects wrap ps s = .ok s' ∧
      headingsOf s'.cmds =
        headingsOf s.cmds ++ (if ps.isEmpty then [] else ["Projects"]) := by
  by_cases he : ps.isEmpty = true
  · exact ⟨s, by simp [renderProjects, he], by simp [he]⟩
  · obtain ⟨s', hs1, hh1⟩ := renderProjList_ok wrap ps
      (sectionHeading "Projects" s) hall
    refine ⟨s', by simp [renderProjects, he, hs1], ?_⟩
    rw [hh1]
    simp [he]

/-- The Extra Courses & Certificates section succeeds on well-keyed
entries and contributes its heading exactly when the list is non-empty. -/
theorem renderCertificates_ok (cs : List CertEntry) (s : PdfState)
    (hall : ∀ c ∈ cs, c.title.isSome = true ∧ c.organization.isSome = true ∧
      c.date.isSome = true) :
    ∃ s', renderCertificates cs s = .ok s' ∧
      headingsOf s'.cmds = headingsOf s.cmds ++
        (if cs.isEmpty then [] else ["Extra Courses & Certificates"]) := by
  by_cases he : cs.isEmpty = true
  · exact ⟨s, by simp [renderCertificates, he], by simp [he]⟩
  · obtain ⟨s', hs1, hh1⟩ := renderCertList_ok cs
      (pdfSetFont "Helvetica" "" 12
        (sectionHeading "Extra Courses & Certificates" s)) hall
    refine ⟨s', by simp [renderCertificates, he, hs1], ?_⟩
    rw [hh1]
    simp [he]

/-! ## C3: required sub-fields of list entries -/

/-- The counterexample record for C3: a well-formed experience entry per
the spec's entry-time requirements (`title` and `company` present) with
the spec-optional `start_date`/`end_date`/`description` omitted. -/
def missingDatesRecord : ResumeRecord :=
  { emptyRecord with
    experience := some [{ title := some "Engineer", company := some "Acme" }] }

/-- **C3 counterexample.** The renderer does fail on an entry that has its
required sub-fields (`title`, `company`) but omits the optional
`start_date`: the date f-string indexes `exp['start_date']` directly and
raises `KeyError`. -/
theorem c3_counterexample_missing_optional_subfields :
    create_pdf env0 wrap1 missingDatesRecord =
      .error (.keyError "start_date") := rfl

/-- **C3 amended.** `create_pdf` succeeds on any record whose list entries
carry every directly-indexed key — for experience `title`, `company`,
`start_date` and `end_date`; for education `degree`, `university`,
`start_date` and `end_date`; for projects `title`, `start_date` and
`end_date`; for certificates `title`, `organization` and `date` — while
`description`, `cgpa`, project `company` and project `budget` may be
omitted freely.  (The claim's list of safely omittable fields was wider:
the renderer indexes the date fields, `university`, `organization` and
`date` unconditionally, so those must be present.) -/
theorem c3_renderer_key_requirements :
    ∀ (env : RenderEnv) (wrap : String → Nat) (r : ResumeRecord),
      (∀ e ∈ r.experience.getD [], e.title.isSome = true ∧
        e.company.isSome = true ∧ e.start_date.isSome = true ∧
        e.end_date.isSome = true) →
      (∀ e ∈ r.education.getD [], e.degree.isSome = true ∧
        e.university.isSome = true ∧ e.start_date.isSome = true ∧
        e.end_date.isSome = true) →
      (∀ p ∈ r.projects.getD [], p.title.isSome = true ∧
        p.start_date.isSome = true ∧ p.end_date.isSome = true) →
      (∀ c ∈ r.certificates.getD [], c.title.isSome = true ∧
        c.organization.isSome = true ∧ c.date.isSome = true) →
      ∃ doc, create_pdf env wrap r = .ok doc := by
  intro env wrap r hexpk heduk hprojk hcertk
  obtain ⟨s4, hexp_eq, _⟩ := renderExperience_ok wrap (r.experience.getD [])
    (renderSummary wrap (r.summary.getD "")
      (renderContact wrap r.email r.linkedin r.github r.phone r.location
        (renderNameHeader (r.name.getD "") initPdf))) hexpk
  obtain ⟨s5, hedu_eq, _⟩ :=
    renderEducation_ok wrap (r.education.getD []) s4 heduk
  obtain ⟨s7, hproj_eq, _⟩ := renderProjects_ok wrap (r.projects.getD [])
    (renderSkills wrap (r.skills.getD []) s5) hprojk
  obtain ⟨s8, hcert_eq, _⟩ :=
    renderCertificates_ok (r.certificates.getD []) s7 hcertk
  refine ⟨⟨(renderAdditional (r.languages.getD []) (r.interests.getD [])
    s8).cmds,
    (renderAdditional (r.languages.getD []) (r.interests.getD [])
      s8).page⟩, ?_⟩
  simp only [create_pdf, hexp_eq, hedu_eq, hproj_eq, hcert_eq]

/-- An experience entry with only the directly-indexed keys. -/
def expRequired : ExpEntry :=
  { title := some "Engineer", company := some "Acme",
    start_date := some "2020-01-01", end_date := some "2021-01-01" }

/-- An education entry with only the directly-indexed keys. -/
def eduRequired : EduEntry :=
  { degree := some "BS CS", university := some "SIU",
    start_date := some "2016", end_date := some "2020" }

/-- A project entry with only the directly-indexed keys. -/
def projRequired : ProjEntry :=
  { title := some "App", start_date := some "2021",
    end_date := some "2022" }

/-- A certificate entry with only the directly-indexed keys. -/
def certRequired : CertEntry :=
  { title := some "Cert", organization := some "Coursera",
    date := some "2023" }

/-- A record whose entries carry exactly the keys the amended C3 requires
and omit every other sub-field. -/
def requiredKeysRecord : ResumeRecord :=
  { emptyRecord with
    experience := some [expRequired],
    education := some [eduRequired],
    projects := some [projRequired],
    certificates := some [certRequired] }

/-- **C3 witness.** A record with only the directly-indexed entry keys
(no `description`, `cgpa`, project `company` or `budget`) renders. -/
theorem c3_renderer_key_requirements_witness :
    ∃ doc, create_pdf env0 wrap1 requiredKeysRecord = .ok doc :=
  c3_renderer_key_requirements env0 wrap1 requiredKeysRecord
    (by decide) (by decide) (by decide) (by decide)

/-! ## C7: fixed section order -/

/-- **C7.** For every record with a non-empty summary, at least one entry
in every list field, and entries carrying the keys the renderer indexes,
rendering succeeds and the section headings appear in exactly the fixed
order: Profile Summary, Experience, Education, Skills, Projects, Extra
Courses & Certificates, Additional Information. -/
theorem c7_section_order :
    ∀ (env : RenderEnv) (wrap : String → Nat) (r : ResumeRecord),
      r.summary.getD "" ≠ "" →
      r.experience.getD [] ≠ [] →
      r.education.getD [] ≠ [] →
      r.skills.getD [] ≠ [] →
      r.projects.getD [] ≠ [] →
      r.certificates.getD [] ≠ [] →
      r.languages.getD [] ≠ [] →
      r.interests.getD [] ≠ [] →
      (∀ e ∈ r.experience.getD [], e.title.isSome = true ∧
        e.company.isSome = true ∧ e.start_date.isSome = true ∧
        e.end_date.isSome = true) →
      (∀ e ∈ r.education.getD [], e.degree.isSome = true ∧
        e.university.isSome = true ∧ e.start_date.isSome = true ∧
        e.end_date.isSome = true) →
      (∀ p ∈ r.projects.getD [], p.title.isSome = true ∧
        p.start_date.isSome = true ∧ p.end_date.isSome = true) →
      (∀ c ∈ r.certificates.getD [], c.title.isSome = true ∧
        c.organization.isSome = true ∧ c.date.isSome = true) →
      ∃ doc, create_pdf env wrap r = .ok doc ∧
        headingsOf doc.cmds =
          ["Profile Summary", "Experience", "Education", "Skills",
           "Projects", "Extra Courses & Certificates",
           "Additional Information"] := by
  intro env wrap r hsum hexp hedu hsk hproj hcert hlang hint
    hexpk heduk hprojk hcertk
  obtain ⟨s4, hexp_eq, hexp_h⟩ :=
    renderExperience_ok wrap (r.experience.getD [])
      (renderSummary wrap (r.summary.getD "")
        (renderContact wrap r.email r.linkedin r.github r.phone r.location
          (renderNameHeader (r.name.getD "") initPdf))) hexpk
  obtain ⟨s5, hedu_eq, hedu_h⟩ :=
    renderEducation_ok wrap (r.education.getD []) s4 heduk
  obtain ⟨s7, hproj_eq, hproj_h⟩ :=
    renderProjects_ok wrap (r.projects.getD [])
      (renderSkills wrap (r.skills.getD []) s5) hprojk
  obtain ⟨s8, hcert_eq, hcert_h⟩ :=
    renderCertificates_ok (r.certificates.getD []) s7 hcertk
  refine ⟨⟨(renderAdditional (r.languages.getD []) (r.interests.getD [])
    s8).cmds,
    (renderAdditional (r.languages.getD []) (r.interests.getD [])
      s8).page⟩, ?_, ?_⟩
  · simp only [create_pdf, hexp_eq, hedu_eq, hproj_eq, hcert_eq]
  · show headingsOf (renderAdditional (r.languages.getD [])
      (r.interests.getD []) s8).cmds = _
    rw [headingsOf_renderAdditional, hcert_h, hproj_h,
      headingsOf_renderSkills, hedu_h, hexp_h, headingsOf_renderSummary]
    simp [hsum,
      isEmpty_false_of_ne_nil hexp, isEmpty_false_of_ne_nil hedu,
      isEmpty_false_of_ne_nil hproj, isEmpty_false_of_ne_nil hcert,
      isEmpty_false_of_ne_nil hlang, isEmpty_false_of_ne_nil hint]

/-- An experience entry with every sub-field present. -/
def expFull : ExpEntry :=
  { expRequired with description := some "Built things" }

/-- An education entry with every sub-field present. -/
def eduFull : EduEntry :=
  { eduRequired with cgpa := some "3.5", description := some "Thesis" }

/-- A project entry with every sub-field present. -/
def projFull : ProjEntry :=
  { projRequired with
    company := some "Acme"
    budget := some "$5000"
    description := some "A project" }

/-- A fully populated record: one entry in every list field, all entry
keys present, non-empty summary and contact fields. -/
def fullRecord : ResumeRecord :=
  { name := some "Jane Doe", title := some "Engineer",
    email := some "jane@example.com", linkedin := some "linkedin.com/in/jd",
    github := some "github.com/jd", phone := some "0301",
    location := some "Sukkur, Pakistan",
    summary := some "Seasoned engineer.",
    skills := some ["Python"],
    experience := some [expFull],
    education := some [eduFull],
    projects := some [projFull],
    certificates := some [certRequired],
    languages := some ["English"], interests := some ["Chess"] }

/-- **C7 witness.** The fully populated record renders with the seven
headings in the fixed order. -/
theorem c7_section_order_witness :
    ∃ doc, create_pdf env0 wrap1 fullRecord = .ok doc ∧
      headingsOf doc.cmds =
        ["Profile Summary", "Experience", "Education", "Skills",
         "Projects", "Extra Courses & Certificates",
         "Additional Information"] :=
  c7_section_order env0 wrap1 fullRecord (by decide) (by decide) (by decide)
    (by decide) (by decide) (by decide) (by decide) (by decide) (by decide)
    (by decide) (by decide) (by decide)

/-! ## C4: the all-empty record -/

/-- The document `create_pdf` produces for the all-empty record: the
single `add_page`, the (empty) name header cell, the unconditional
contact-font set, then the Skills heading with its rule — and nothing
else, on one page. -/
def emptyRecordDoc : PdfDoc :=
  { cmds := [Cmd.addPage,
      Cmd.setFont "Helvetica" "B" 22,
      Cmd.cell 0 5 "" true "C",
      Cmd.lineBreak 2,
      Cmd.setFont "Helvetica" "" 12,
      Cmd.setFont "Helvetica" "B" 14,
      Cmd.cell 0 10 "Skills" true "",
      Cmd.setDrawColor 0 0 0,
      Cmd.drawLine 10 27 200 27,
      Cmd.lineBreak 2,
      Cmd.lineBreak 4],
    pages := 1 }

/-- **C4.** For the record with every optional scalar field empty and
every list field empty, `create_pdf` succeeds with a non-empty
single-page document whose only text cells are the (empty) name header
and the Skills heading; the Skills heading and its rule are emitted even
though the skills list is empty — no other section appears. -/
theorem c4_empty_record_single_page :
    ∀ (env : RenderEnv) (wrap : String → Nat),
      create_pdf env wrap emptyRecord = .ok emptyRecordDoc ∧
      emptyRecordDoc.pages = 1 ∧
      emptyRecordDoc.cmds ≠ [] ∧
      textsOf emptyRecordDoc.cmds = [pyUpper "", "Skills"] ∧
      headingsOf emptyRecordDoc.cmds = ["Skills"] ∧
      Cmd.drawLine 10 27 200 27 ∈ emptyRecordDoc.cmds := by
  intro env wrap
  exact ⟨rfl, rfl, by decide, by decide, by decide, by decide⟩

/-! ## C8: a missing key equals an empty value -/

/-- The top-level fields of a `ResumeRecord`. -/
inductive RField where
  | name | title | email | linkedin | github | phone | location | summary
  | skills | experience | education | projects | certificates | languages
  | interests
deriving DecidableEq, Repr

/-- The record with field `k` removed from the dictionary. -/
def setAbsent (r : ResumeRecord) : RField → ResumeRecord
  | .name => { r with name := none }
  | .title => { r with title := none }
  | .email => { r with email := none }
  | .linkedin => { r with linkedin := none }
  | .github => { r with github := none }
  | .phone => { r with phone := none }
  | .location => { r with location := none }
  | .summary => { r with summary := none }
  | .skills => { r with skills := none }
  | .experience => { r with experience := none }
  | .education => { r with education := none }
  | .projects => { r with projects := none }
  | .certificates => { r with certificates := none }
  | .languages => { r with languages := none }
  | .interests => { r with interests := none }

/-- The record with field `k` bound to its empty value: the empty string
for scalar fields, the empty sequence for list fields. -/
def setEmptyVal (r : ResumeRecord) : RField → ResumeRecord
  | .name => { r with name := some "" }
  | .title => { r with title := some "" }
  | .email => { r with email := some "" }
  | .linkedin => { r with linkedin := some "" }
  | .github => { r with github := some "" }
  | .phone => { r with phone := some "" }
  | .location => { r with location := some "" }
  | .summary => { r with summary := some "" }
  | .skills => { r with skills := some [] }
  | .experience => { r with experience := some [] }
  | .education => { r with education := some [] }
  | .projects => { r with projects := some [] }
  | .certificates => { r with certificates := some [] }
  | .languages => { r with languages := some [] }
  | .interests => { r with interests := some [] }

/-- **C8.** For every record and every top-level field, rendering with
the field absent equals rendering with the field bound to the empty
string (scalars) or the empty sequence (lists): every access in
`create_pdf` goes through `.get` with a default or a truthiness test, so
a missing key behaves exactly like an empty value. -/
theorem c8_missing_key_eq_empty :
    ∀ (env : RenderEnv) (wrap : String → Nat) (r : ResumeRecord)
      (k : RField),
      create_pdf env wrap (setAbsent r k) =
        create_pdf env wrap (setEmptyVal r k) := by
  intro env wrap r k
  cases k <;>
    simp [create_pdf, setAbsent, setEmptyVal, renderContact, pyTruthy]
